import Mathlib

/-!
Shallow embedding of the CORS origin-authorization logic of the
Feedinprod repository (smart-farm-backend).  The repository contains four
variants of the same decision logic:

* `src/main.ts`, first variant: a static allow-list merged with entries
  parsed from `CORS_ORIGIN` (`allowedOrigins`), an `originCallback`
  passed to the CORS package, and an inline middleware registered with
  `app.use` that sets headers and short-circuits `OPTIONS` requests.
* `src/main.ts`, second variant: `validateOrigin`, which grants Railway
  domains and localhost origins by regular-expression patterns.
* `src/main.minimal.ts`: an `allowedOrigins` value that is `true` in
  wildcard mode and otherwise a callback over custom origins plus the
  same patterns.
* `src/common/middleware/cors.middleware.ts`: `CorsMiddleware.use`,
  which always sets an `Access-Control-Allow-Origin` header, with
  fallbacks when the requesting origin is not recognised.

Configuration (`process.env.CORS_ORIGIN`) is modelled as `Option String`
(`none` = unset) and the request origin header as `Option String`
(`none` = absent).  JavaScript truthiness of a string value (`undefined`
and `""` are falsy) is modelled by `truthy` / `jsOr`.  The JavaScript
string operations used by the source (`split(',')`, `trim()`,
single-character-class regular expressions) are given structurally
recursive models over `String.data` so that every definition evaluates
inside the kernel.
-/

/-! ### JavaScript string primitives -/

/-- JavaScript truthiness of an optional string: `undefined` and the
empty string are falsy, every other string is truthy. -/
def truthy : Option String → Bool
  | none => false
  | some s => s != ""

/-- JavaScript `x || d` on an optional string `x`: the value of `x` when
truthy, otherwise the default `d`. -/
def jsOr (o : Option String) (d : String) : String :=
  match o with
  | some s => if s == "" then d else s
  | none => d

/-- The characters removed by ECMAScript `String.prototype.trim`:
whitespace (TAB, VT, FF, SP, NBSP, ZWNBSP) and line terminators (LF, CR,
LINE SEPARATOR, PARAGRAPH SEPARATOR). -/
def jsWhitespace (c : Char) : Bool :=
  c == ' ' || c == '\t' || c == '\n' || c == '\r' ||
    c == Char.ofNat 11 || c == Char.ofNat 12 || c == Char.ofNat 0xa0 ||
    c == Char.ofNat 0xfeff || c == Char.ofNat 0x2028 || c == Char.ofNat 0x2029

/-- Remove leading and trailing JavaScript whitespace from a character
list. -/
def trimChars (l : List Char) : List Char :=
  ((l.dropWhile jsWhitespace).reverse.dropWhile jsWhitespace).reverse

/-- Model of JavaScript `s.trim()`. -/
def jsTrim (s : String) : String := String.mk (trimChars s.data)

/-- Split a character list at every occurrence of the separator, keeping
empty segments, as JavaScript `split` does ( `"a,,b"` gives three
segments, `""` gives one empty segment). -/
def splitChars (sep : Char) : List Char → List (List Char)
  | [] => [[]]
  | c :: cs =>
      match splitChars sep cs with
      | [] => [[]]
      | h :: t => if c == sep then [] :: h :: t else (c :: h) :: t

/-- Model of JavaScript `s.split(',')`. -/
def jsSplit (s : String) : List String := (splitChars ',' s.data).map String.mk

/-- Whether the first list is an initial segment of the second. -/
def startsWithChars : List Char → List Char → Bool
  | [], _ => true
  | _ :: _, [] => false
  | p :: ps, c :: cs => p == c && startsWithChars ps cs

/-- Model of JavaScript `s.startsWith(p)`. -/
def jsStartsWith (s p : String) : Bool := startsWithChars p.data s.data

/-- Model of JavaScript `s.endsWith(p)`. -/
def jsEndsWith (s p : String) : Bool := startsWithChars p.data.reverse s.data.reverse

/-! ### The `main.ts` list variant -/

/-- The hard-coded default origins (`main.ts` lines 27-31 and
`cors.middleware.ts` lines 23-27 list the same three strings). -/
def defaultOrigins : List String :=
  ["https://feedin.up.railway.app", "http://localhost:4200", "http://127.0.0.1:4200"]

/-- One step of the `forEach` loop of `main.ts` lines 36-41: trim the
entry, and append it when it is non-empty and not already present. -/
def addOrigin (acc : List String) (o : String) : List String :=
  if jsTrim o != "" && !(acc.contains (jsTrim o)) then acc ++ [jsTrim o] else acc

/-- The `allowedOrigins` list built in `main.ts` lines 27-42: the three
defaults, extended by the comma-separated entries of `CORS_ORIGIN` when
that variable is truthy and not `"*"`. -/
def mainAllowedOrigins : Option String → List String
  | some c =>
      if c != "*" && c != "" then (jsSplit c).foldl addOrigin defaultOrigins
      else defaultOrigins
  | none => defaultOrigins

/-- Result of one invocation of a CORS origin callback
`callback(err, allow)`: the error argument (`none` models JavaScript
`null`) and the allow flag. -/
structure CbResult where
  err : Option String
  allow : Bool
deriving DecidableEq, Repr

/-- The `originCallback` of `main.ts` lines 45-68: allow when the origin
is absent, when `CORS_ORIGIN === '*'`, or when the origin is in
`allowedOrigins`; otherwise the callback is invoked with `(null, false)`. -/
def originCallback (cfg : Option String) (origin : Option String) : CbResult :=
  if !truthy origin then ⟨none, true⟩
  else if cfg == some "*" then ⟨none, true⟩
  else if (mainAllowedOrigins cfg).contains (origin.getD "") then ⟨none, true⟩
  else ⟨none, false⟩

/-- Outcome of a middleware invocation: terminate the request with a
status and body, or forward it with `next()`. -/
inductive Outcome
  | terminate (status : Nat) (body : String)
  | next
deriving DecidableEq, Repr

/-- Observable effect of one middleware invocation: the response headers
it set, and whether it terminated or forwarded the request. -/
structure MwResult where
  headers : List (String × String)
  outcome : Outcome
deriving DecidableEq, Repr

/-- Value of a response header after a middleware ran (`none` when the
middleware did not set it). -/
def headerValue (r : MwResult) (name : String) : Option String :=
  (r.headers.find? (fun p => p.1 == name)).map (fun p => p.2)

/-- The `shouldAllow` flag of the inline middleware (`main.ts` lines
88-96). -/
def mainShouldAllow (cfg : Option String) (origin : Option String) : Bool :=
  if !truthy origin then true
  else if cfg == some "*" then true
  else (mainAllowedOrigins cfg).contains (origin.getD "")

/-- The inline middleware of `main.ts` lines 85-114: compute
`shouldAllow`, set the five CORS headers when the origin is truthy and
allowed, and answer `OPTIONS` requests with `204` and an empty body. -/
def mainMiddleware (cfg : Option String) (origin : Option String) (method : String) :
    MwResult :=
  let headers :=
    if mainShouldAllow cfg origin && truthy origin then
      [("Access-Control-Allow-Origin", origin.getD ""),
       ("Access-Control-Allow-Credentials", "true"),
       ("Access-Control-Allow-Methods", "GET, HEAD, PUT, PATCH, POST, DELETE, OPTIONS"),
       ("Access-Control-Allow-Headers",
        "Origin, X-Requested-With, Content-Type, Accept, Authorization, X-CSRF-Token"),
       ("Access-Control-Max-Age", "86400")]
    else []
  if method == "OPTIONS" then ⟨headers, Outcome.terminate 204 ""⟩
  else ⟨headers, Outcome.next⟩

/-! ### `CorsMiddleware.use` -/

/-- The `allowedOrigins` list of `cors.middleware.ts` line 18: split the
(already trimmed) configuration value on commas and trim each entry.
Empty entries are kept. -/
def cmAllowedOriginsList (c : String) : List String :=
  (jsSplit c).map jsTrim

/-- The default branch of `cors.middleware.ts` lines 37-50: echo the
origin when it is one of the defaults, otherwise `origin ||
'https://feedin.up.railway.app'`. -/
def cmDefaultBranch (origin : Option String) : String :=
  if truthy origin && defaultOrigins.contains (origin.getD "") then origin.getD ""
  else jsOr origin "https://feedin.up.railway.app"

/-- The branch structure of `cors.middleware.ts` lines 13-50, applied to
the already-trimmed configuration value. -/
def cmResolve : Option String → Option String → String
  | some c, origin =>
      if c == "*" then jsOr origin "*"
      else if c != "" then
        if truthy origin && (cmAllowedOriginsList c).contains (origin.getD "") then
          origin.getD ""
        else if truthy origin && defaultOrigins.contains (origin.getD "") then
          origin.getD ""
        else if (cmAllowedOriginsList c).length > 0 then (cmAllowedOriginsList c).headD ""
        else jsOr origin "https://feedin.up.railway.app"
      else cmDefaultBranch origin
  | none, origin => cmDefaultBranch origin

/-- The `allowedOrigin` value computed by `CorsMiddleware.use`
(`cors.middleware.ts` lines 7-50).  The environment value is trimmed
(`process.env.CORS_ORIGIN?.trim()`) before the wildcard comparison, and
a value is ALWAYS produced. -/
def cmAllowedOrigin (env : Option String) (origin : Option String) : String :=
  cmResolve (env.map jsTrim) origin

/-- `CorsMiddleware.use` (`cors.middleware.ts` lines 6-65): always set
the five CORS headers, then answer `OPTIONS` with `204` and an empty
body, otherwise call `next()`. -/
def corsMiddleware (env : Option String) (origin : Option String) (method : String) :
    MwResult :=
  ⟨[("Access-Control-Allow-Origin", cmAllowedOrigin env origin),
    ("Access-Control-Allow-Methods", "GET,HEAD,PUT,PATCH,POST,DELETE,OPTIONS"),
    ("Access-Control-Allow-Headers",
     "Content-Type, Authorization, X-CSRF-Token, Accept, Origin, X-Requested-With"),
    ("Access-Control-Allow-Credentials", "true"),
    ("Access-Control-Max-Age", "86400")],
   if method == "OPTIONS" then Outcome.terminate 204 "" else Outcome.next⟩

/-- Wildcard-mode test of the `main.ts` variants: `corsOrigin === '*'`
on the raw environment value. -/
def mainIsWildcard (cfg : Option String) : Bool := cfg == some "*"

/-- Wildcard-mode test of `CorsMiddleware.use` (`cors.middleware.ts`
lines 7-13): the environment value is trimmed first. -/
def cmIsWildcard (cfg : Option String) : Bool := cfg.map jsTrim == some "*"

/-! ### The Railway-pattern variants -/

/-- Line terminators, the characters the JavaScript regex metacharacter
`.` does not match. -/
def isLineTerminator (c : Char) : Bool :=
  c == Char.ofNat 10 || c == Char.ofNat 13 || c == Char.ofNat 0x2028 || c == Char.ofNat 0x2029

/-- The test `/^https:\/\/.*\.up\.railway\.app$/.test s` (`main.ts` line
209, `main.minimal.ts` lines 58 and 74): `s` is `"https://"`, then any
characters other than line terminators, then `".up.railway.app"`. -/
def railwayTest (s : String) : Bool :=
  jsStartsWith s "https://" && jsEndsWith s ".up.railway.app" &&
    decide (23 ≤ s.data.length) &&
    ((s.data.drop 8).take (s.data.length - 23)).all (fun c => !isLineTerminator c)

/-- The test `/^http:\/\/localhost(:\d+)?$/.test s` (`main.ts` line
210): localhost with an optional decimal port. -/
def localhostTest (s : String) : Bool :=
  s == "http://localhost" ||
    (jsStartsWith s "http://localhost:" && decide (17 < s.data.length) &&
      (s.data.drop 17).all Char.isDigit)

/-- The test `/^http:\/\/127\.0\.0\.1(:\d+)?$/.test s` (`main.ts` line
211): the loopback IP with an optional decimal port. -/
def localhostIpTest (s : String) : Bool :=
  s == "http://127.0.0.1" ||
    (jsStartsWith s "http://127.0.0.1:" && decide (17 < s.data.length) &&
      (s.data.drop 17).all Char.isDigit)

/-- The test `/^http:\/\/localhost:\d+$/.test s` (`main.minimal.ts`
lines 62 and 72): localhost with a mandatory decimal port. -/
def localhostPortTest (s : String) : Bool :=
  jsStartsWith s "http://localhost:" && decide (17 < s.data.length) &&
    (s.data.drop 17).all Char.isDigit

/-- The test `/^http:\/\/127\.0\.0\.1:\d+$/.test s` (`main.minimal.ts`
lines 62 and 73): the loopback IP with a mandatory decimal port. -/
def localhostIpPortTest (s : String) : Bool :=
  jsStartsWith s "http://127.0.0.1:" && decide (17 < s.data.length) &&
    (s.data.drop 17).all Char.isDigit

/-- The `customOrigins` list of the Railway variant (`main.ts` line
244): split on commas, trim, and discard entries that are empty after
trimming (`filter(o => o)`). -/
def railwayCustomOrigins (c : String) : List String :=
  ((jsSplit c).map jsTrim).filter (fun o => o != "")

/-- The `validateOrigin` callback of the Railway variant (`main.ts`
lines 214-259).  Every reachable path invokes the callback with a null
error. -/
def validateOrigin (cfg : Option String) (origin : Option String) : CbResult :=
  if !truthy origin then ⟨none, true⟩
  else if cfg == some "*" then ⟨none, true⟩
  else if railwayTest (origin.getD "") then ⟨none, true⟩
  else if localhostTest (origin.getD "") || localhostIpTest (origin.getD "") then ⟨none, true⟩
  else if truthy cfg && (railwayCustomOrigins (cfg.getD "")).contains (origin.getD "") then
    ⟨none, true⟩
  else ⟨none, false⟩

/-- The `customOrigins` list of `main.minimal.ts` line 57: split on
commas and trim.  Empty entries are kept (there is no filter). -/
def minimalCustomOrigins (c : String) : List String :=
  (jsSplit c).map jsTrim

/-- The default-branch callback of `main.minimal.ts` lines 70-79. -/
def minimalDefaultCb (origin : Option String) : Bool :=
  !truthy origin || localhostPortTest (origin.getD "") ||
    localhostIpPortTest (origin.getD "") || railwayTest (origin.getD "")

/-- The allow decision of `main.minimal.ts` lines 50-80: `true` for
every origin in wildcard mode, otherwise the callback of the custom or
default branch. -/
def minimalAllow : Option String → Option String → Bool
  | some c, origin =>
      if c == "*" then true
      else if c != "" then
        !truthy origin || (minimalCustomOrigins c).contains (origin.getD "") ||
          railwayTest (origin.getD "") || localhostPortTest (origin.getD "") ||
          localhostIpPortTest (origin.getD "")
      else minimalDefaultCb origin
  | none, origin => minimalDefaultCb origin

/-- The configured allow-list as the spec words it (section 3 of the
specification): "parsed from one optional environment string,
comma-separated, trimmed, empty entries discarded".  Stated for
comparison with the lists the source code builds. -/
def specConfiguredList (c : String) : List String :=
  ((jsSplit c).map jsTrim).filter (fun t => t != "")

/-! ### Helper lemmas -/

/-- `List.contains` on strings agrees with membership. -/
theorem contains_iff (l : List String) (x : String) : l.contains x = true ↔ x ∈ l := by
  simp [List.contains, List.elem_iff]

/-- Entries already accumulated survive the `forEach` loop of
`main.ts`: the loop only appends. -/
theorem mem_foldl_addOrigin (l : List String) (acc : List String) (x : String)
    (hx : x ∈ acc) : x ∈ l.foldl addOrigin acc := by
  induction l generalizing acc with
  | nil => exact hx
  | cons a l ih =>
      refine ih (addOrigin acc a) ?_
      unfold addOrigin
      split
      · exact List.mem_append_left _ hx
      · exact hx

/-- Membership after the `forEach` loop: a string is in the result iff
it was accumulated already or it is a non-empty trimmed entry of the
input list. -/
theorem foldl_addOrigin_mem (l : List String) (acc : List String) (x : String) :
    x ∈ l.foldl addOrigin acc ↔
      x ∈ acc ∨ x ∈ (l.map jsTrim).filter (fun t => t != "") := by
  induction l generalizing acc with
  | nil => simp
  | cons a l ih =>
      simp only [List.foldl_cons, List.map_cons]
      rw [ih]
      by_cases h1 : jsTrim a = ""
      · have hcond : (jsTrim a != "" && !(acc.contains (jsTrim a))) = false := by
          rw [h1]
          rfl
        have ha : addOrigin acc a = acc := by
          unfold addOrigin
          rw [hcond]
          rfl
        have hfil : ((jsTrim a != "") = true) = False := by
          rw [h1]
          simp
        rw [ha]
        simp only [List.filter_cons, hfil, if_false]
      · have hne : (jsTrim a != "") = true := by
          simp only [bne_iff_ne, ne_eq]
          exact h1
        by_cases h2 : jsTrim a ∈ acc
        · have hcontains : acc.contains (jsTrim a) = true := (contains_iff _ _).mpr h2
          have ha : addOrigin acc a = acc := by
            unfold addOrigin
            rw [hcontains, hne]
            rfl
          rw [ha]
          simp only [List.filter_cons, hne, if_true, List.mem_cons]
          constructor
          · rintro (h | h)
            · exact Or.inl h
            · exact Or.inr (Or.inr h)
          · rintro (h | h | h)
            · exact Or.inl h
            · exact Or.inl (h ▸ h2)
            · exact Or.inr h
        · have hc : acc.contains (jsTrim a) = false := by
            cases hcon : acc.contains (jsTrim a) with
            | false => rfl
            | true => exact absurd ((contains_iff _ _).mp hcon) h2
          have ha : addOrigin acc a = acc ++ [jsTrim a] := by
            unfold addOrigin
            rw [hc, hne]
            rfl
          rw [ha]
          simp only [List.filter_cons, hne, if_true, List.mem_cons, List.mem_append,
            List.mem_singleton]
          tauto

/-- The `forEach` loop preserves freedom from duplicates. -/
theorem nodup_foldl_addOrigin (l : List String) (acc : List String)
    (h : acc.Nodup) : (l.foldl addOrigin acc).Nodup := by
  induction l generalizing acc with
  | nil => exact h
  | cons a l ih =>
      refine ih (addOrigin acc a) ?_
      unfold addOrigin
      split
      · next hcond =>
          simp only [Bool.and_eq_true, Bool.not_eq_true'] at hcond
          have h2 : jsTrim a ∉ acc := by
            intro hmem
            have := (contains_iff _ _).mpr hmem
            rw [hcond.2] at this
            exact Bool.false_ne_true this
          simp [List.nodup_append, h, h2]
      · exact h

/-- Membership in the effective `main.ts` allow-list, for any
configuration other than the exact wildcard: the union of the defaults
and the parsed configured entries. -/
theorem mainAllowedOrigins_mem (cfg : Option String) (hcfg : cfg ≠ some "*") (x : String) :
    x ∈ mainAllowedOrigins cfg ↔
      x ∈ defaultOrigins ∨ x ∈ specConfiguredList (cfg.getD "") := by
  match cfg with
  | none =>
      have h : specConfiguredList "" = [] := by decide
      simp [mainAllowedOrigins, h]
  | some c =>
      have hc : c ≠ "*" := by intro h; exact hcfg (by rw [h])
      by_cases hce : c = ""
      · subst hce
        have h : specConfiguredList "" = [] := by decide
        simp [mainAllowedOrigins, h]
      · have hm : mainAllowedOrigins (some c) = (jsSplit c).foldl addOrigin defaultOrigins := by
          simp [mainAllowedOrigins, hc, hce]
        rw [hm, foldl_addOrigin_mem]
        rfl

/-- When the inline middleware allows a truthy origin, the
`Access-Control-Allow-Origin` header it sets is exactly that origin. -/
theorem mainMiddleware_header_allowed (cfg : Option String) (origin : Option String)
    (m : String) (h : (mainShouldAllow cfg origin && truthy origin) = true) :
    headerValue (mainMiddleware cfg origin m) "Access-Control-Allow-Origin" =
      some (origin.getD "") := by
  unfold mainMiddleware
  cases hb : m == "OPTIONS" <;>
    simp only [hb, if_pos, if_neg, Bool.false_eq_true, not_false_iff, ite_true, ite_false] <;>
    rw [if_pos h] <;>
    simp [headerValue, List.find?]

/-- When the inline middleware does not allow the request origin (or the
origin is absent), it sets no headers at all. -/
theorem mainMiddleware_header_blocked (cfg : Option String) (origin : Option String)
    (m : String) (h : (mainShouldAllow cfg origin && truthy origin) = false) :
    headerValue (mainMiddleware cfg origin m) "Access-Control-Allow-Origin" = none := by
  unfold mainMiddleware
  cases hb : m == "OPTIONS" <;>
    simp only [hb, Bool.false_eq_true, not_false_iff, ite_true, ite_false] <;>
    rw [if_neg (by rw [h]; exact Bool.false_ne_true)] <;>
    simp [headerValue, List.find?]

/-! ### Claim theorems -/

/-- Claim C1: when the policy is in AllowAll mode (`CORS_ORIGIN` equals
`"*"`), every non-absent request origin is allowed, and the
`Access-Control-Allow-Origin` header emitted (by the inline middleware
and by `CorsMiddleware`) equals the literal requesting origin — a
literal `"*"` is never emitted for an origin other than `"*"` itself. -/
theorem wildcard_mode_echoes_origin (o m : String) (ho : o ≠ "") :
    originCallback (some "*") (some o) = ⟨none, true⟩ ∧
    headerValue (mainMiddleware (some "*") (some o) m) "Access-Control-Allow-Origin" =
      some o ∧
    cmAllowedOrigin (some "*") (some o) = o ∧
    (o ≠ "*" →
      headerValue (mainMiddleware (some "*") (some o) m) "Access-Control-Allow-Origin" ≠
        some "*") := by
  have ht : truthy (some o) = true := by
    simp [truthy, bne_iff_ne, ho]
  have hhdr : headerValue (mainMiddleware (some "*") (some o) m)
      "Access-Control-Allow-Origin" = some o := by
    cases hb : m == "OPTIONS" <;>
      simp [mainMiddleware, mainShouldAllow, headerValue, ht, hb, List.find?]
  refine ⟨?_, hhdr, ?_, ?_⟩
  · simp [originCallback, ht]
  · have htrim : jsTrim "*" = "*" := by decide
    simp [cmAllowedOrigin, cmResolve, jsOr, htrim, ho]
  · intro hstar
    rw [hhdr]
    intro hh
    exact hstar (Option.some.inj hh)

/-- Witness for C1 at a concrete wildcard-mode request. -/
theorem wildcard_mode_echoes_origin_witness :
    originCallback (some "*") (some "https://anything.example") = ⟨none, true⟩ ∧
    headerValue (mainMiddleware (some "*") (some "https://anything.example") "OPTIONS")
        "Access-Control-Allow-Origin" = some "https://anything.example" ∧
    cmAllowedOrigin (some "*") (some "https://anything.example") =
      "https://anything.example" ∧
    ("https://anything.example" ≠ "*" →
      headerValue (mainMiddleware (some "*") (some "https://anything.example") "OPTIONS")
          "Access-Control-Allow-Origin" ≠ some "*") :=
  wildcard_mode_echoes_origin "https://anything.example" "OPTIONS" (by decide)

/-- Counterexample to C2 as stated: under `CORS_ORIGIN =
"https://a.example"` the origin `https://c.example` is outside the
effective allow-set, yet `CorsMiddleware` still sets an
`Access-Control-Allow-Origin` header (to the first configured origin). -/
theorem allowlist_blocked_header_counterexample :
    "https://c.example" ∉ mainAllowedOrigins (some "https://a.example") ∧
    originCallback (some "https://a.example") (some "https://c.example") = ⟨none, false⟩ ∧
    headerValue (corsMiddleware (some "https://a.example") (some "https://c.example") "GET")
        "Access-Control-Allow-Origin" = some "https://a.example" := by
  refine ⟨by decide, by decide, by decide⟩

/-- Claim C2 (amended): in AllowList mode a non-absent origin outside
the effective allow-set gets `allow = false` from the origin callback
and no `Access-Control-Allow-Origin` header from the inline middleware
of `main.ts`; `CorsMiddleware`, however, always sets that header (to a
fallback value). -/
theorem allowlist_blocked_no_header (cfg : Option String) (o m : String)
    (hcfg : cfg ≠ some "*") (ho : o ≠ "") (hmem : o ∉ mainAllowedOrigins cfg) :
    originCallback cfg (some o) = ⟨none, false⟩ ∧
    headerValue (mainMiddleware cfg (some o) m) "Access-Control-Allow-Origin" = none ∧
    headerValue (corsMiddleware cfg (some o) m) "Access-Control-Allow-Origin" =
      some (cmAllowedOrigin cfg (some o)) := by
  have ht : truthy (some o) = true := by
    simp [truthy, bne_iff_ne, ho]
  have h1 : (cfg == some "*") = false := by
    cases hb : cfg == some "*" with
    | false => rfl
    | true => exact absurd (eq_of_beq hb) hcfg
  have h2 : (mainAllowedOrigins cfg).contains o = false := by
    cases hb : (mainAllowedOrigins cfg).contains o with
    | false => rfl
    | true => exact absurd ((contains_iff _ _).mp hb) hmem
  refine ⟨?_, ?_, rfl⟩
  · simp [originCallback, ht, h1, h2, hmem]
  · cases hb : m == "OPTIONS" <;>
      simp [mainMiddleware, mainShouldAllow, headerValue, ht, h1, h2, hb, hmem]

/-- Witness for the amended C2 at a concrete blocked request. -/
theorem allowlist_blocked_no_header_witness :
    originCallback (some "https://a.example") (some "https://x.example") = ⟨none, false⟩ ∧
    headerValue (mainMiddleware (some "https://a.example") (some "https://x.example") "GET")
        "Access-Control-Allow-Origin" = none ∧
    headerValue (corsMiddleware (some "https://a.example") (some "https://x.example") "GET")
        "Access-Control-Allow-Origin" =
      some (cmAllowedOrigin (some "https://a.example") (some "https://x.example")) :=
  allowlist_blocked_no_header (some "https://a.example") "https://x.example" "GET"
    (by decide) (by decide) (by decide)

/-- Claim C4: both middlewares answer every `OPTIONS` request by
terminating it with status 204 and an empty body, and forward every
other method to the next stage. -/
theorem preflight_short_circuit (cfg origin : Option String) (m : String) :
    (mainMiddleware cfg origin m).outcome =
      (if m == "OPTIONS" then Outcome.terminate 204 "" else Outcome.next) ∧
    (corsMiddleware cfg origin m).outcome =
      (if m == "OPTIONS" then Outcome.terminate 204 "" else Outcome.next) := by
  constructor
  · unfold mainMiddleware
    cases hb : m == "OPTIONS" <;> simp [hb]
  · rfl

/-- Claim C3: for every value of `CORS_ORIGIN`, a request from the
production frontend origin `https://feedin.up.railway.app` is allowed by
every variant — the configured list extends the static defaults, it
never replaces them. -/
theorem production_origin_always_allowed (cfg : Option String) (m : String) :
    "https://feedin.up.railway.app" ∈ mainAllowedOrigins cfg ∧
    originCallback cfg (some "https://feedin.up.railway.app") = ⟨none, true⟩ ∧
    headerValue (mainMiddleware cfg (some "https://feedin.up.railway.app") m)
        "Access-Control-Allow-Origin" = some "https://feedin.up.railway.app" ∧
    cmAllowedOrigin cfg (some "https://feedin.up.railway.app") =
      "https://feedin.up.railway.app" ∧
    validateOrigin cfg (some "https://feedin.up.railway.app") = ⟨none, true⟩ ∧
    minimalAllow cfg (some "https://feedin.up.railway.app") = true := by
  have ht : truthy (some "https://feedin.up.railway.app") = true := by decide
  have hrail : railwayTest "https://feedin.up.railway.app" = true := by decide
  have hmem : "https://feedin.up.railway.app" ∈ mainAllowedOrigins cfg := by
    by_cases hcfg : cfg = some "*"
    · subst hcfg
      decide
    · rw [mainAllowedOrigins_mem cfg hcfg]
      left
      decide
  have hcont : (mainAllowedOrigins cfg).contains "https://feedin.up.railway.app" = true :=
    (contains_iff _ _).mpr hmem
  have hsa : mainShouldAllow cfg (some "https://feedin.up.railway.app") = true := by
    cases hb : cfg == some "*" <;> simp [mainShouldAllow, ht, hb, hcont, hmem]
  refine ⟨hmem, ?_, ?_, ?_, ?_, ?_⟩
  · cases hb : cfg == some "*" <;> simp [originCallback, ht, hb, hcont, hmem]
  · rw [mainMiddleware_header_allowed cfg (some "https://feedin.up.railway.app") m
      (by rw [hsa, ht]; rfl)]
    rfl
  · match cfg with
    | none => decide
    | some c =>
        show cmResolve (some (jsTrim c)) (some "https://feedin.up.railway.app") =
          "https://feedin.up.railway.app"
        cases h1 : jsTrim c == "*" with
        | true =>
            simp [cmResolve, h1]
            decide
        | false =>
            cases h2 : jsTrim c != "" with
            | false =>
                simp [cmResolve, h1, h2, cmDefaultBranch]
                intros
                decide
            | true =>
                simp only [cmResolve, h1, h2, Bool.false_eq_true, not_false_iff,
                  ite_true, ite_false, if_false, if_true]
                by_cases h3 : (truthy (some "https://feedin.up.railway.app") &&
                    (cmAllowedOriginsList (jsTrim c)).contains
                      ((some "https://feedin.up.railway.app").getD "")) = true
                · rw [if_pos h3]
                  rfl
                · rw [if_neg h3, if_pos (by decide)]
                  rfl
  · cases hb : cfg == some "*" <;> simp [validateOrigin, ht, hb, hrail]
  · match cfg with
    | none => decide
    | some c =>
        show minimalAllow (some c) (some "https://feedin.up.railway.app") = true
        cases h1 : c == "*" with
        | true => simp [minimalAllow, h1]
        | false =>
            cases h2 : c != "" with
            | false => simp [minimalAllow, h1, h2, minimalDefaultCb, hrail]
            | true => simp [minimalAllow, h1, h2, hrail]

/-- Counterexample to C5 as stated: with `CORS_ORIGIN` unset and no
request origin, `CorsMiddleware` still emits an
`Access-Control-Allow-Origin` header (the production default). -/
theorem absent_origin_header_counterexample :
    headerValue (corsMiddleware none none "GET") "Access-Control-Allow-Origin" =
      some "https://feedin.up.railway.app" ∧
    headerValue (corsMiddleware none none "GET") "Access-Control-Allow-Origin" ≠ none := by
  refine ⟨by decide, by decide⟩

/-- Claim C5 (amended): a request with no declared origin is allowed by
every origin callback under every policy, and the inline middleware of
`main.ts` emits no `Access-Control-Allow-Origin` header for it;
`CorsMiddleware`, however, always emits that header, falling back to a
wildcard, the first configured origin, or the production default. -/
theorem absent_origin_allowed (cfg : Option String) (m : String) :
    originCallback cfg none = ⟨none, true⟩ ∧
    validateOrigin cfg none = ⟨none, true⟩ ∧
    minimalAllow cfg none = true ∧
    mainShouldAllow cfg none = true ∧
    headerValue (mainMiddleware cfg none m) "Access-Control-Allow-Origin" = none ∧
    headerValue (corsMiddleware cfg none m) "Access-Control-Allow-Origin" =
      some (cmAllowedOrigin cfg none) := by
  refine ⟨rfl, rfl, ?_, rfl, ?_, rfl⟩
  · match cfg with
    | none => decide
    | some c =>
        show minimalAllow (some c) none = true
        cases h1 : c == "*" with
        | true => simp [minimalAllow, h1]
        | false =>
            cases h2 : c != "" with
            | false => simp [minimalAllow, h1, h2, minimalDefaultCb, truthy]
            | true => simp [minimalAllow, h1, h2, truthy]
  · cases hb : m == "OPTIONS" <;>
      simp [mainMiddleware, mainShouldAllow, headerValue, truthy, hb]

/-- Counterexample to C6 as stated: `CorsMiddleware` trims the
environment value before the wildcard comparison, so `CORS_ORIGIN = " *"`
(not exactly `"*"`) still puts it in AllowAll mode — it echoes an
arbitrary origin — while the `main.ts` variant is in AllowList mode. -/
theorem trimmed_wildcard_counterexample :
    cmIsWildcard (some " *") = true ∧
    (some " *" : Option String) ≠ some "*" ∧
    mainIsWildcard (some " *") = false ∧
    cmAllowedOrigin (some " *") (some "https://evil.example") = "https://evil.example" ∧
    originCallback (some " *") (some "https://evil.example") = ⟨none, false⟩ := by
  refine ⟨by decide, by decide, by decide, by decide, by decide⟩

/-- Claim C6 (amended): the `main.ts` policy is in AllowAll mode iff
`CORS_ORIGIN` is exactly `"*"`, while `CorsMiddleware` compares the
trimmed value; in AllowList mode the effective `main.ts` allow-set is
the deduplicated union of the static defaults and the parsed configured
list. -/
theorem mode_iff_and_union (cfg : Option String) (x : String) (hcfg : cfg ≠ some "*") :
    (mainIsWildcard cfg = true ↔ cfg = some "*") ∧
    (cmIsWildcard cfg = true ↔ cfg.map jsTrim = some "*") ∧
    (x ∈ mainAllowedOrigins cfg ↔
      x ∈ defaultOrigins ∨ x ∈ specConfiguredList (cfg.getD "")) ∧
    (mainAllowedOrigins cfg).Nodup := by
  refine ⟨?_, ?_, mainAllowedOrigins_mem cfg hcfg x, ?_⟩
  · simp [mainIsWildcard]
  · simp [cmIsWildcard]
  · match cfg with
    | none => decide
    | some c =>
        have e : mainAllowedOrigins (some c) =
            if (c != "*" && c != "") = true then (jsSplit c).foldl addOrigin defaultOrigins
            else defaultOrigins := rfl
        by_cases h : (c != "*" && c != "") = true
        · rw [e, if_pos h]
          exact nodup_foldl_addOrigin _ _ (by decide)
        · rw [e, if_neg h]
          decide

/-- Witness for the amended C6 at a concrete AllowList configuration. -/
theorem mode_iff_and_union_witness :
    (mainIsWildcard (some "https://a.example,https://a.example") = true ↔
      (some "https://a.example,https://a.example" : Option String) = some "*") ∧
    (cmIsWildcard (some "https://a.example,https://a.example") = true ↔
      (some "https://a.example,https://a.example" : Option String).map jsTrim = some "*") ∧
    ("https://a.example" ∈ mainAllowedOrigins (some "https://a.example,https://a.example") ↔
      "https://a.example" ∈ defaultOrigins ∨
        "https://a.example" ∈
          specConfiguredList ((some "https://a.example,https://a.example" :
            Option String).getD "")) ∧
    (mainAllowedOrigins (some "https://a.example,https://a.example")).Nodup :=
  mode_iff_and_union (some "https://a.example,https://a.example") "https://a.example"
    (by decide)

/-- Counterexample to C7 as stated: with `CORS_ORIGIN = ","` the lists
built by `CorsMiddleware` and `main.minimal.ts` contain two empty
entries — the empty entries are not discarded — and `CorsMiddleware`
consequently sets an empty `Access-Control-Allow-Origin` header. -/
theorem empty_entry_counterexample :
    cmAllowedOriginsList "," = ["", ""] ∧
    minimalCustomOrigins "," = ["", ""] ∧
    specConfiguredList "," = [] ∧
    cmAllowedOrigin (some ",") (some "https://x.example") = "" := by
  refine ⟨by decide, by decide, by decide, by decide⟩

/-- Claim C7 (amended): both `main.ts` variants discard entries that are
empty after trimming (the Railway variant's list coincides with the
spec's parse, and the list variant only ever adds trimmed non-empty
entries to the defaults), while `main.minimal.ts` and `CorsMiddleware`
split and trim but keep empty entries. -/
theorem configured_list_parsing (c x : String) :
    railwayCustomOrigins c = specConfiguredList c ∧
    (x ∈ mainAllowedOrigins (some c) → x ∈ defaultOrigins ∨ x ∈ specConfiguredList c) ∧
    minimalCustomOrigins c = (jsSplit c).map jsTrim ∧
    cmAllowedOriginsList c = (jsSplit c).map jsTrim ∧
    "" ∉ specConfiguredList c := by
  refine ⟨rfl, ?_, rfl, rfl, ?_⟩
  · intro hx
    by_cases hc : c = "*"
    · subst hc
      rw [show mainAllowedOrigins (some "*") = defaultOrigins from rfl] at hx
      exact Or.inl hx
    · have hcfg : (some c : Option String) ≠ some "*" := fun h => hc (Option.some.inj h)
      rcases (mainAllowedOrigins_mem (some c) hcfg x).mp hx with h | h
      · exact Or.inl h
      · exact Or.inr h
  · simp [specConfiguredList, List.mem_filter]

/-- Witness for the amended C7 at a configuration value with leading
whitespace and empty entries. -/
theorem configured_list_parsing_witness :
    railwayCustomOrigins " https://a.example ,," =
      specConfiguredList " https://a.example ,," ∧
    ("https://a.example" ∈ mainAllowedOrigins (some " https://a.example ,,") →
      "https://a.example" ∈ defaultOrigins ∨
        "https://a.example" ∈ specConfiguredList " https://a.example ,,") ∧
    minimalCustomOrigins " https://a.example ,," =
      (jsSplit " https://a.example ,,").map jsTrim ∧
    cmAllowedOriginsList " https://a.example ,," =
      (jsSplit " https://a.example ,,").map jsTrim ∧
    "" ∉ specConfiguredList " https://a.example ,," :=
  configured_list_parsing " https://a.example ,," "https://a.example"

/-- A string accepted by the port-mandatory localhost pattern is also
accepted by the port-optional one. -/
theorem localhostTest_of_port (o : String) (h : localhostPortTest o = true) :
    localhostTest o = true := by
  have e : localhostTest o = ((o == "http://localhost") || localhostPortTest o) := rfl
  rw [e, h, Bool.or_true]

/-- A string accepted by the port-mandatory loopback-IP pattern is also
accepted by the port-optional one. -/
theorem localhostIpTest_of_port (o : String) (h : localhostIpPortTest o = true) :
    localhostIpTest o = true := by
  have e : localhostIpTest o = ((o == "http://127.0.0.1") || localhostIpPortTest o) := rfl
  rw [e, h, Bool.or_true]

/-- The default branch of `main.minimal.ts` grants every origin matching
one of the patterns. -/
theorem minimalDefaultCb_of_pattern (o : String)
    (h : railwayTest o = true ∨ localhostPortTest o = true ∨ localhostIpPortTest o = true) :
    minimalDefaultCb (some o) = true := by
  rcases h with h | h | h <;> simp [minimalDefaultCb, h]

/-- Claim C8: in the Railway-pattern variants, every origin matching the
Railway domain pattern, and every localhost or loopback-IP origin with a
port, is granted regardless of the `CORS_ORIGIN` value. -/
theorem railway_pattern_grant (cfg : Option String) (o : String)
    (h : railwayTest o = true ∨ localhostPortTest o = true ∨ localhostIpPortTest o = true) :
    validateOrigin cfg (some o) = ⟨none, true⟩ ∧ minimalAllow cfg (some o) = true := by
  have ho : o ≠ "" := by
    rintro rfl
    exact absurd h (by decide)
  have ht : truthy (some o) = true := by
    simp [truthy, bne_iff_ne, ho]
  constructor
  · cases hw : cfg == some "*" with
    | true => simp [validateOrigin, ht, hw]
    | false =>
        rcases h with hr | hl | hi
        · simp [validateOrigin, ht, hw, hr]
        · have hloc : localhostTest o = true := localhostTest_of_port o hl
          by_cases hr2 : railwayTest o = true
          · simp [validateOrigin, ht, hw, hr2]
          · simp [validateOrigin, ht, hw, hr2, hloc]
        · have hloc : localhostIpTest o = true := localhostIpTest_of_port o hi
          by_cases hr2 : railwayTest o = true
          · simp [validateOrigin, ht, hw, hr2]
          · simp [validateOrigin, ht, hw, hr2, hloc]
  · match cfg with
    | none => exact minimalDefaultCb_of_pattern o h
    | some c =>
        show minimalAllow (some c) (some o) = true
        cases h1 : c == "*" with
        | true => simp [minimalAllow, h1]
        | false =>
            cases h2 : c != "" with
            | false => simp [minimalAllow, h1, h2, minimalDefaultCb_of_pattern o h]
            | true =>
                rcases h with hr | hl | hi
                · simp [minimalAllow, h1, h2, hr]
                · simp [minimalAllow, h1, h2, hl]
                · simp [minimalAllow, h1, h2, hi]

/-- Witness for C8: a Railway subdomain origin is granted under an
unrelated configured allow-list. -/
theorem railway_pattern_grant_witness :
    validateOrigin (some "https://other.example") (some "https://app.up.railway.app") =
      ⟨none, true⟩ ∧
    minimalAllow (some "https://other.example") (some "https://app.up.railway.app") = true :=
  railway_pattern_grant (some "https://other.example") "https://app.up.railway.app"
    (by decide)

/-- Claim C9: the origin validators never produce an error — every
input, allowed or blocked, yields a decision whose error component is
null; a blocked origin is a non-grant, not a failure. -/
theorem resolver_never_errors (cfg origin : Option String) :
    (validateOrigin cfg origin).err = none ∧
    (originCallback cfg origin).err = none ∧
    (validateOrigin cfg origin = ⟨none, true⟩ ∨ validateOrigin cfg origin = ⟨none, false⟩) ∧
    (originCallback cfg origin = ⟨none, true⟩ ∨
      originCallback cfg origin = ⟨none, false⟩) := by
  have hv : validateOrigin cfg origin = ⟨none, true⟩ ∨
      validateOrigin cfg origin = ⟨none, false⟩ := by
    unfold validateOrigin
    repeat' split
    all_goals simp
  have hoc : originCallback cfg origin = ⟨none, true⟩ ∨
      originCallback cfg origin = ⟨none, false⟩ := by
    unfold originCallback
    repeat' split
    all_goals simp
  refine ⟨?_, ?_, hv, hoc⟩
  · rcases hv with h | h <;> rw [h]
  · rcases hoc with h | h <;> rw [h]

/-- Claim C10: each resolver variant is a pure function of the
configuration and the request — two invocations on identical inputs
produce identical decisions, headers and outcomes. -/
theorem resolve_deterministic (cfg cfg2 origin origin2 : Option String) (m m2 : String)
    (hc : cfg = cfg2) (ho : origin = origin2) (hm : m = m2) :
    mainMiddleware cfg origin m = mainMiddleware cfg2 origin2 m2 ∧
    corsMiddleware cfg origin m = corsMiddleware cfg2 origin2 m2 ∧
    validateOrigin cfg origin = validateOrigin cfg2 origin2 ∧
    originCallback cfg origin = originCallback cfg2 origin2 ∧
    minimalAllow cfg origin = minimalAllow cfg2 origin2 := by
  subst hc
  subst ho
  subst hm
  exact ⟨rfl, rfl, rfl, rfl, rfl⟩

/-- Witness for C10 at one concrete repeated invocation. -/
theorem resolve_deterministic_witness :
    mainMiddleware (some "*") (some "https://w.example") "GET" =
      mainMiddleware (some "*") (some "https://w.example") "GET" ∧
    corsMiddleware (some "*") (some "https://w.example") "GET" =
      corsMiddleware (some "*") (some "https://w.example") "GET" ∧
    validateOrigin (some "*") (some "https://w.example") =
      validateOrigin (some "*") (some "https://w.example") ∧
    originCallback (some "*") (some "https://w.example") =
      originCallback (some "*") (some "https://w.example") ∧
    minimalAllow (some "*") (some "https://w.example") =
      minimalAllow (some "*") (some "https://w.example") :=
  resolve_deterministic (some "*") (some "*") (some "https://w.example")
    (some "https://w.example") "GET" "GET" rfl rfl rfl
